import Mathlib

/-!
Verification of the ECG/IMU holter capture firmware.

The definitions below are a shallow embedding of the two source files
`src/main.cpp` and `src/holter_capture.cpp`: the binary frame codec
(`FileHeader`, `ECGSample` and their byte layouts), the write buffer
(`writeToBuffer` / `flushBuffer`), the session writer (`startCapture`,
`stopCapture` with its header patch `patchCounts`), the fixed-rate ECG
scheduler (`ecgLoop`), the MQTT upload handshake (`mqttCallback`,
`waitForUrl`, `requestDestination`) and the S3 transfer step
(`uploadToS3`).  Machine integers are modelled as `Nat` with explicit
`% 2 ^ w` truncation at the byte-encoding boundary; the durable store is
a byte list, and store write acceptance (how many bytes a write call
accepts) is an explicit input so that short writes can be analysed.
-/

namespace Holter

/-- Little-endian byte image of a 16-bit value, as produced by writing a
packed `uint16_t` field on the little-endian ESP32. -/
def le16 (n : Nat) : List Nat := [n % 256, n / 256 % 256]

/-- Little-endian byte image of a 32-bit value (`uint32_t` field). -/
def le32 (n : Nat) : List Nat :=
  [n % 256, n / 256 % 256, n / 65536 % 256, n / 16777216 % 256]

/-- Value read back from a 4-byte little-endian image. -/
def fromLe32 (bs : List Nat) : Nat :=
  bs.getD 0 0 + 256 * bs.getD 1 0 + 65536 * bs.getD 2 0 + 16777216 * bs.getD 3 0

/-- sizeof(FileHeader): 4+2+2+4+4+2+2+4+4 packed bytes. -/
def HEADER_SIZE : Nat := 28

/-- sizeof(ECGSample): three packed int16 leads. -/
def ECG_RECORD_SIZE : Nat := 6

/-- sizeof(IMUSample): three packed int16 axes. -/
def IMU_RECORD_SIZE : Nat := 6

/-- BUFFER_SIZE from the source: 8 KiB staging buffer. -/
def BUFFER_SIZE : Nat := 8192

/-- CAPTURE_DURATION_SEC from the source. -/
def CAPTURE_DURATION_SEC : Nat := 15

/-- ECG_SAMPLE_RATE_HZ from the source. -/
def ECG_SAMPLE_RATE_HZ : Nat := 250

/-- IMU_SAMPLE_RATE_HZ from the source (main.cpp variant). -/
def IMU_SAMPLE_RATE_HZ : Nat := 50

/-- ECG_INTERVAL_US = 1000000 / ECG_SAMPLE_RATE_HZ, exactly as in the source. -/
def ECG_INTERVAL_US : Nat := 1000000 / ECG_SAMPLE_RATE_HZ

/-- Byte offset of num_ecg_samples inside the packed header
(holter_capture.cpp hardcodes OFFSET_NUM_ECG = 20). -/
def OFFSET_NUM_ECG : Nat := 20

/-- Byte offset of num_imu_samples inside the packed header
(holter_capture.cpp hardcodes OFFSET_NUM_IMU = 24). -/
def OFFSET_NUM_IMU : Nat := 24

/-- The packed FileHeader struct of the source, fields as Nat values. -/
structure FileHeader where
  magic : Nat
  version : Nat
  device_id : Nat
  session_id : Nat
  timestamp_start : Nat
  ecg_sample_rate : Nat
  imu_sample_rate : Nat
  num_ecg_samples : Nat
  num_imu_samples : Nat

/-- Byte image of the packed FileHeader struct, in field order. -/
def encodeHeader (h : FileHeader) : List Nat :=
  le32 h.magic ++ le16 h.version ++ le16 h.device_id ++ le32 h.session_id ++
  le32 h.timestamp_start ++ le16 h.ecg_sample_rate ++ le16 h.imu_sample_rate ++
  le32 h.num_ecg_samples ++ le32 h.num_imu_samples

/-- The packed ECGSample struct: three signed fixed-point lead values. -/
structure ECGSample where
  derivation_I : Int
  derivation_II : Int
  derivation_III : Int

/-- Byte image of an int16 field: two's-complement truncation then
little-endian bytes. -/
def int16Bytes (v : Int) : List Nat := le16 (v % 65536).toNat

/-- Byte image of the packed ECGSample struct. -/
def encodeECG (s : ECGSample) : List Nat :=
  int16Bytes s.derivation_I ++ int16Bytes s.derivation_II ++ int16Bytes s.derivation_III

/-- Overwrite the bytes of `bs` starting at `off` with `d`
(a positioned write: seek(off) followed by write(d)). -/
def setBytes (bs : List Nat) (off : Nat) (d : List Nat) : List Nat :=
  bs.take off ++ d ++ bs.drop (off + d.length)

/-- Read a uint32 value from byte offset `off` of a stored byte sequence. -/
def readLe32At (bs : List Nat) (off : Nat) : Nat :=
  fromLe32 ((bs.drop off).take 4)

/-- State of the write buffer alone, with the sequence of blocks emitted by
flushes kept observable.  `buffer` holds writeBuffer[0..bufferIndex);
`flushedBlocks` are the arguments of the store writes issued so far. -/
structure BufState where
  buffer : List Nat
  flushedBlocks : List (List Nat)

/-- One iteration of the copy loop in writeToBuffer:
writeBuffer[bufferIndex++] = data[i]; if (bufferIndex >= BUFFER_SIZE) flushBuffer(). -/
def pushByte (st : BufState) (b : Nat) : BufState :=
  let buf := st.buffer ++ [b]
  if BUFFER_SIZE ≤ buf.length then ⟨[], st.flushedBlocks ++ [buf]⟩
  else ⟨buf, st.flushedBlocks⟩

/-- writeToBuffer(data, len): byte-by-byte copy with transparent flush. -/
def writeToBuffer (st : BufState) (data : List Nat) : BufState :=
  data.foldl pushByte st

/-- Total bytes ever accepted by the buffer: flushed plus still staged. -/
def bytesOf (st : BufState) : Nat :=
  (st.flushedBlocks.map List.length).sum + st.buffer.length

/-- Session-writer state: the session file on the durable store, the staging
buffer, and the two in-memory sample counters. -/
structure Capture where
  file : List Nat
  buffer : List Nat
  sampleCount : Nat
  imuSampleCount : Nat

/-- Diagnostic emitted by flushBuffer: no fault, a failed write
(written == 0), or a partial write reported as written/requested. -/
inductive FlushLog
  | okLog
  | failedLog
  | shortLog (written requested : Nat)
deriving DecidableEq

/-- Result of flushBuffer: the new state, the list of store write calls
issued (arguments passed to dataFile.write), and the diagnostic. -/
structure FlushOut where
  cap : Capture
  calls : List (List Nat)
  log : FlushLog

/-- flushBuffer(): empty buffer is a no-op; otherwise one write call of the
whole buffer contents, of which the store accepts `w` bytes, then the
cursor is reset to 0.  A short or failed write is reported. -/
def flushBuffer (c : Capture) (w : Nat) : FlushOut :=
  if c.buffer.length = 0 then ⟨c, [], FlushLog.okLog⟩
  else
    let written := min w c.buffer.length
    ⟨⟨c.file ++ c.buffer.take written, [], c.sampleCount, c.imuSampleCount⟩,
      [c.buffer],
      if written = 0 then FlushLog.failedLog
      else if written = c.buffer.length then FlushLog.okLog
      else FlushLog.shortLog written c.buffer.length⟩

/-- One iteration of writeToBuffer's copy loop at session level: the
overflow flush writes straight into the session file (store accepting
everything, i.e. the durable store is available and healthy). -/
def capPushByte (c : Capture) (b : Nat) : Capture :=
  let buf := c.buffer ++ [b]
  if BUFFER_SIZE ≤ buf.length then
    ⟨c.file ++ buf, [], c.sampleCount, c.imuSampleCount⟩
  else
    ⟨c.file, buf, c.sampleCount, c.imuSampleCount⟩

/-- writeToBuffer at session level. -/
def capWriteBytes (c : Capture) (data : List Nat) : Capture :=
  data.foldl capPushByte c

/-- One ECG fire of captureLoop: encode the sample, writeToBuffer it,
sampleCount++. -/
def recordECG (c : Capture) (s : ECGSample) : Capture :=
  let c1 := capWriteBytes c (encodeECG s)
  ⟨c1.file, c1.buffer, c1.sampleCount + 1, c1.imuSampleCount⟩

/-- The initial header written by startCapture: magic "ECGD", version 1,
device 1, both counters zero. -/
def initialHeader (ts : Nat) : FileHeader :=
  ⟨0x45434744, 1, 1, ts, ts, ECG_SAMPLE_RATE_HZ, IMU_SAMPLE_RATE_HZ, 0, 0⟩

/-- startCapture with the durable store available: create the file, write
the placeholder header, zero the counters and the buffer cursor. -/
def startCapture (ts : Nat) : Capture :=
  ⟨encodeHeader (initialHeader ts), [], 0, 0⟩

/-- Events of the capture phase: an ECG scheduler fire, or the periodic
time-driven flush (whose store write accepts `w` bytes). -/
inductive Ev
  | sample (s : ECGSample)
  | flushTick (w : Nat)

/-- One capture-phase event applied to the session state. -/
def step (c : Capture) : Ev → Capture
  | Ev.sample s => recordECG c s
  | Ev.flushTick w => (flushBuffer c w).cap

/-- Run a capture-phase event trace. -/
def runEvs (c : Capture) (evs : List Ev) : Capture :=
  evs.foldl step c

/-- Bool test for an ECG-sample event. -/
def isSampleEv : Ev → Bool
  | Ev.sample _ => true
  | Ev.flushTick _ => false

/-- Number of ECG records appended in a trace. -/
def countSamples (evs : List Ev) : Nat := evs.countP isSampleEv

/-- A trace in which every periodic flush's store write accepts everything
the durable store is fully available. -/
def ReliableEvs (evs : List Ev) : Prop :=
  ∀ e ∈ evs, ∀ w, e = Ev.flushTick w → BUFFER_SIZE ≤ w

/-- The finalize-time header patch of main.cpp stopCapture: seek(0), read
the 28-byte header image, assign the two count fields in that image
(bytes 20..23 and 24..27), seek(0), write the image back. -/
def patchCounts (file : List Nat) (n m : Nat) : List Nat :=
  let hdr := file.take HEADER_SIZE
  let hdr1 := setBytes hdr OFFSET_NUM_ECG (le32 n)
  let hdr2 := setBytes hdr1 OFFSET_NUM_IMU (le32 m)
  hdr2 ++ file.drop HEADER_SIZE

/-- The finalize-time header patch of holter_capture.cpp holter_stopCapture:
seek(OFFSET_NUM_ECG), write 4 bytes; seek(OFFSET_NUM_IMU), write 4 zero
bytes. -/
def patchCountsHolter (file : List Nat) (n : Nat) : List Nat :=
  setBytes (setBytes file OFFSET_NUM_ECG (le32 n)) OFFSET_NUM_IMU (le32 0)

/-- The orchestrator states of main.cpp (SystemState enum). -/
inductive SysState
  | init
  | capturing
  | uploadRequest
  | uploading
  | complete
  | error
deriving DecidableEq

/-- Verdict printed by the final verification of stopCapture. -/
inductive Verdict
  | okFile
  | corruptFile
  | sizeMismatch (actual expected : Nat)
deriving DecidableEq

/-- Result of stopCapture: the file left on the store, the next
orchestrator state, and the verification verdict. -/
structure StopOut where
  file : List Nat
  state : SysState
  verdict : Verdict

/-- expectedSize = sizeof(FileHeader) + sampleCount*sizeof(ECGSample)
+ imuSampleCount*sizeof(IMUSample). -/
def expectedSize (c : Capture) : Nat :=
  HEADER_SIZE + c.sampleCount * ECG_RECORD_SIZE + c.imuSampleCount * IMU_RECORD_SIZE

/-- stopCapture of main.cpp with the store available: final flush of the
buffer (store healthy at finalize), header patch, then re-open and
verify: error exactly when the file is smaller than one header,
otherwise proceed to the upload request, recording whether the size
matched. -/
def stopCapture (c : Capture) : StopOut :=
  let c1 := (flushBuffer c c.buffer.length).cap
  let f := patchCounts c1.file c.sampleCount c.imuSampleCount
  if f.length < HEADER_SIZE then ⟨f, SysState.error, Verdict.corruptFile⟩
  else if f.length = expectedSize c then ⟨f, SysState.uploadRequest, Verdict.okFile⟩
  else ⟨f, SysState.uploadRequest, Verdict.sizeMismatch f.length (expectedSize c)⟩

/-- The ECG catch-up loop of captureLoop:
while (now - lastECGSample >= ECG_INTERVAL_US) lastECGSample += ECG_INTERVAL_US,
firing (and counting) one sample per iteration.  Returns the new due
time and the new sample count. -/
def ecgLoop (last now count : Nat) : Nat × Nat :=
  if ECG_INTERVAL_US ≤ now - last then
    ecgLoop (last + ECG_INTERVAL_US) now (count + 1)
  else (last, count)
termination_by now - last
decreasing_by
  simp only [ECG_INTERVAL_US, ECG_SAMPLE_RATE_HZ] at *
  omega

/-- The scheduler driven across a sequence of captureLoop invocation
times, starting with lastECGSample initialised to the session start
time (lastECGSample = micros() in startCapture). -/
def runLoop (start : Nat) (ts : List Nat) : Nat × Nat :=
  ts.foldl (fun p t => ecgLoop p.1 t p.2) (start, 0)

/-- Parse result of an incoming MQTT payload: JSON that fails to parse,
JSON without the upload_url key, or JSON carrying upload_url. -/
inductive Payload
  | malformed
  | noUrl
  | withUrl (u : String)
deriving DecidableEq

/-- An incoming MQTT message: its topic and its parsed payload. -/
structure Msg where
  topic : String
  payload : Payload

/-- The transient handshake state: the urlReceived flag and uploadURL. -/
structure HandshakeVars where
  urlReceived : Bool
  uploadURL : String

/-- mqttCallback: parse the JSON (malformed is logged and dropped), then
check the topic against the expected response topic, then look for the
upload_url key; only a well-formed message on the response topic with
the key sets the flag.  Everything else leaves the state untouched. -/
def mqttCallback (respTopic : String) (st : HandshakeVars) (m : Msg) : HandshakeVars :=
  match m.payload with
  | Payload.malformed => st
  | p =>
      if m.topic = respTopic then
        match p with
        | Payload.withUrl u => ⟨true, u⟩
        | _ => st
      else st

/-- The handshake wait ceiling: 60 s, fixed in requestUploadURL. -/
def HANDSHAKE_TIMEOUT_MS : Nat := 60000

/-- delay(100) between polls of the wait loop. -/
def POLL_DELAY_MS : Nat := 100

/-- The wait loop of requestUploadURL:
while (!urlReceived && elapsed < 60000) mqttClient.loop(); delay(100).
`batches` lists, per iteration, the messages the MQTT client delivers
to mqttCallback during that iteration; `t` is the elapsed time.
Once the input batches are exhausted, no message can arrive any more and
the remaining iterations cannot change the state. -/
def waitForUrl (respTopic : String) :
    HandshakeVars → Nat → List (List Msg) → HandshakeVars × Nat
  | st, t, batches =>
    if st.urlReceived ∨ HANDSHAKE_TIMEOUT_MS ≤ t then (st, t)
    else
      match batches with
      | [] => (st, t)
      | b :: rest =>
          waitForUrl respTopic (b.foldl (mqttCallback respTopic) st) (t + POLL_DELAY_MS) rest

/-- Resolution of the upload-URL handshake. -/
inductive HandshakeOutcome
  | destinationReceived (u : String)
  | timedOut
  | publishFailedOut
deriving DecidableEq

/-- requestUploadURL: publish the request descriptor; if the publish
fails, resolve to PublishFailed; otherwise run the bounded wait loop
and resolve to the received destination or to Timeout. -/
def requestDestination (respTopic : String) (publishOk : Bool)
    (batches : List (List Msg)) : HandshakeOutcome :=
  if publishOk then
    let r := (waitForUrl respTopic ⟨false, ""⟩ 0 batches).1
    if r.urlReceived then HandshakeOutcome.destinationReceived r.uploadURL
    else HandshakeOutcome.timedOut
  else HandshakeOutcome.publishFailedOut

/-- uploadToS3: open the session file (absent file fails early), read it
fully (`readOk` is whether malloc+read succeeded), issue one PUT and
observe `httpCode`; on 200/204 delete the file (SD.remove succeeding
when `removeOk`) and succeed, otherwise fail, keep the file and report
the status code together with the response body.  Returns
(success, file left on the store, failure report). -/
def uploadToS3 (file : Option (List Nat)) (readOk : Bool) (httpCode : Int)
    (respBody : String) (removeOk : Bool) :
    Bool × Option (List Nat) × Option (Int × String) :=
  match file with
  | none => (false, none, none)
  | some f =>
      if readOk = false then (false, some f, none)
      else if httpCode = 200 ∨ httpCode = 204 then
        (true, if removeOk then none else some f, none)
      else (false, some f, some (httpCode, respBody))

/-- The STATE_UPLOADING branch of loop(): uploadToS3() success moves the
orchestrator to STATE_COMPLETE, failure to STATE_ERROR. -/
def uploadState (ok : Bool) : SysState :=
  if ok then SysState.complete else SysState.error

/-- Orchestrator-visible variables set by startCapture in main.cpp. -/
structure OrchVars where
  sampleCount : Nat
  imuSampleCount : Nat
  isCapturing : Bool
  state : SysState

/-- The !sdAvailable branch of startCapture in main.cpp: simulate 100
samples of each kind, mark not capturing, and jump straight to the
upload-request state. -/
def startCaptureNoSD : OrchVars :=
  ⟨100, 100, false, SysState.uploadRequest⟩

/-- Variables set by the !sdAvailable branch of holter_startCapture,
together with its return value. -/
structure HolterStart where
  sampleCount : Nat
  isCapturing : Bool
  ret : Bool

/-- The !sdAvailable branch of holter_startCapture: sampleCount = 100,
isCapturing = false, return false. -/
def holter_startCaptureNoSD : HolterStart :=
  ⟨100, false, false⟩

/-- holter_isSDAvailable(): returns the module's sdAvailable flag. -/
def holter_isSDAvailable (sdAvailable : Bool) : Bool := sdAvailable

/-- The `if (!isCapturing) return;` guard of holter_captureLoop: when not
capturing the loop body never runs and the state is untouched. -/
def holter_captureLoopGuard (isCapturing : Bool) (c : Capture)
    (body : Capture → Capture) : Capture :=
  if isCapturing then body c else c

/-- holter_getIMUSampleCount(): the source returns the literal 0. -/
def holter_getIMUSampleCount : Nat := 0

/-- holter_isIMUAvailable(): the source returns the literal false. -/
def holter_isIMUAvailable : Bool := false

/-- Concrete stand-in for the configured response topic (the literal
lives in aws_config.h, outside the embedded sources; only equality with
it matters). -/
def topicResponseText : String := "holter/upload-url/response"

/-- A concrete unrelated topic for test inputs. -/
def topicOtherText : String := "holter/other"

/-- A concrete response body for test inputs. -/
def respBodyText : String := "denied"

lemma le32_length (n : Nat) : (le32 n).length = 4 := rfl

lemma fromLe32_le32 (n : Nat) (h : n < 4294967296) : fromLe32 (le32 n) = n := by
  simp [fromLe32, le32]
  omega

lemma encodeECG_length (s : ECGSample) : (encodeECG s).length = ECG_RECORD_SIZE := by
  simp [encodeECG, int16Bytes, le16, ECG_RECORD_SIZE]

lemma encodeHeader_length (h : FileHeader) : (encodeHeader h).length = HEADER_SIZE := by
  simp [encodeHeader, le16, le32, HEADER_SIZE]

lemma setBytes20 (p x tail d : List Nat) (hp : p.length = 20) (hx : x.length = 4)
    (hd : d.length = 4) : setBytes (p ++ x ++ tail) 20 d = p ++ d ++ tail := by
  have ht : (p ++ x ++ tail).take 20 = p := by
    rw [List.append_assoc p x tail]
    exact List.take_left' hp
  have hdp : (p ++ x ++ tail).drop (20 + d.length) = tail := by
    rw [hd]
    exact List.drop_left' (by simp [hp, hx])
  unfold setBytes
  rw [ht, hdp]

lemma setBytes24 (p x y tail d : List Nat) (hp : p.length = 20) (hx : x.length = 4)
    (hy : y.length = 4) (hd : d.length = 4) :
    setBytes (p ++ x ++ y ++ tail) 24 d = p ++ x ++ d ++ tail := by
  have ht : (p ++ x ++ y ++ tail).take 24 = p ++ x := by
    rw [List.append_assoc (p ++ x) y tail]
    exact List.take_left' (by simp [hp, hx])
  have hdp : (p ++ x ++ y ++ tail).drop (24 + d.length) = tail := by
    rw [hd]
    exact List.drop_left' (by simp [hp, hx, hy])
  unfold setBytes
  rw [ht, hdp]

lemma setBytes24_total (p x y d : List Nat) (hp : p.length = 20) (hx : x.length = 4)
    (hy : y.length = 4) (hd : d.length = 4) :
    setBytes (p ++ x ++ y) 24 d = p ++ x ++ d := by
  have ht : (p ++ x ++ y).take 24 = p ++ x := List.take_left' (by simp [hp, hx])
  have hdp : (p ++ x ++ y).drop (24 + d.length) = [] := by
    rw [hd]
    exact List.drop_eq_nil_of_le (by simp [hp, hx, hy])
  unfold setBytes
  rw [ht, hdp, List.append_nil]

lemma file_decomp (file : List Nat) (h : HEADER_SIZE ≤ file.length) :
    ∃ p q r s, file = p ++ q ++ r ++ s ∧ p.length = 20 ∧ q.length = 4 ∧ r.length = 4
      ∧ s = file.drop 28 := by
  simp only [HEADER_SIZE] at h
  refine ⟨file.take 20, (file.drop 20).take 4, (file.drop 24).take 4, file.drop 28,
    ?_, ?_, ?_, ?_, rfl⟩
  · have h28 : file.drop 28 = (file.drop 24).drop 4 := by
      rw [List.drop_drop]
    have h24 : file.drop 24 = (file.drop 20).drop 4 := by
      rw [List.drop_drop]
    simp only [List.append_assoc]
    rw [h28, List.take_append_drop, h24, List.take_append_drop, List.take_append_drop]
  · simp only [List.length_take]
    omega
  · simp only [List.length_take, List.length_drop]
    omega
  · simp only [List.length_take, List.length_drop]
    omega

lemma patchCounts_decomp (p q r s : List Nat) (n m : Nat)
    (hp : p.length = 20) (hq : q.length = 4) (hr : r.length = 4) :
    patchCounts (p ++ q ++ r ++ s) n m = p ++ le32 n ++ le32 m ++ s := by
  unfold patchCounts
  simp only [HEADER_SIZE, OFFSET_NUM_ECG, OFFSET_NUM_IMU]
  rw [List.take_left' (by simp [hp, hq, hr] : (p ++ q ++ r).length = 28)]
  rw [List.drop_left' (by simp [hp, hq, hr] : (p ++ q ++ r).length = 28)]
  rw [setBytes20 p q r (le32 n) hp hq (le32_length n)]
  rw [setBytes24_total p (le32 n) r (le32 m) hp (le32_length n) hr (le32_length m)]

lemma patchCountsHolter_decomp (p q r s : List Nat) (n : Nat)
    (hp : p.length = 20) (hq : q.length = 4) (hr : r.length = 4) :
    patchCountsHolter (p ++ q ++ r ++ s) n = p ++ le32 n ++ le32 0 ++ s := by
  unfold patchCountsHolter
  simp only [OFFSET_NUM_ECG, OFFSET_NUM_IMU]
  rw [List.append_assoc (p ++ q) r s]
  rw [setBytes20 p q (r ++ s) (le32 n) hp hq (le32_length n)]
  rw [← List.append_assoc (p ++ le32 n) r s]
  rw [setBytes24 p (le32 n) r s (le32 0) hp (le32_length n) hr (le32_length 0)]

lemma readLe32At20 (p x tail : List Nat) (hp : p.length = 20) (hx : x.length = 4) :
    readLe32At (p ++ x ++ tail) 20 = fromLe32 x := by
  unfold readLe32At
  rw [List.append_assoc p x tail, List.drop_left' hp, List.take_left' hx]

lemma readLe32At24 (p x y tail : List Nat) (hp : p.length = 20) (hx : x.length = 4)
    (hy : y.length = 4) :
    readLe32At (p ++ x ++ y ++ tail) 24 = fromLe32 y := by
  unfold readLe32At
  rw [List.append_assoc (p ++ x) y tail,
    List.drop_left' (by simp [hp, hx] : (p ++ x).length = 24), List.take_left' hy]

lemma patchCounts_length (file : List Nat) (n m : Nat) (h : HEADER_SIZE ≤ file.length) :
    (patchCounts file n m).length = file.length := by
  obtain ⟨p, q, r, s, hfile, hp, hq, hr, hs⟩ := file_decomp file h
  rw [hfile, patchCounts_decomp p q r s n m hp hq hr]
  simp [hp, hq, hr, le32_length]

lemma patchCounts_read20 (file : List Nat) (n m : Nat) (h : HEADER_SIZE ≤ file.length) :
    readLe32At (patchCounts file n m) OFFSET_NUM_ECG = fromLe32 (le32 n) := by
  obtain ⟨p, q, r, s, hfile, hp, hq, hr, hs⟩ := file_decomp file h
  rw [hfile, patchCounts_decomp p q r s n m hp hq hr]
  simp only [OFFSET_NUM_ECG]
  rw [List.append_assoc (p ++ le32 n) (le32 m) s]
  exact readLe32At20 p (le32 n) (le32 m ++ s) hp (le32_length n)

lemma patchCounts_read24 (file : List Nat) (n m : Nat) (h : HEADER_SIZE ≤ file.length) :
    readLe32At (patchCounts file n m) OFFSET_NUM_IMU = fromLe32 (le32 m) := by
  obtain ⟨p, q, r, s, hfile, hp, hq, hr, hs⟩ := file_decomp file h
  rw [hfile, patchCounts_decomp p q r s n m hp hq hr]
  simp only [OFFSET_NUM_IMU]
  exact readLe32At24 p (le32 n) (le32 m) s hp (le32_length n) (le32_length m)

lemma flushBuffer_full (c : Capture) :
    (flushBuffer c c.buffer.length).cap.file = c.file ++ c.buffer
    ∧ (flushBuffer c c.buffer.length).cap.buffer = []
    ∧ (flushBuffer c c.buffer.length).cap.sampleCount = c.sampleCount
    ∧ (flushBuffer c c.buffer.length).cap.imuSampleCount = c.imuSampleCount := by
  unfold flushBuffer
  by_cases hb : c.buffer.length = 0
  · have : c.buffer = [] := List.length_eq_zero.mp hb
    simp [hb, this]
  · simp [hb, min_self, List.take_length]

lemma stopCapture_file (c : Capture) :
    (stopCapture c).file = patchCounts (c.file ++ c.buffer) c.sampleCount c.imuSampleCount := by
  simp only [stopCapture]
  rw [(flushBuffer_full c).1]
  split_ifs <;> rfl

lemma capPushByte_facts (c : Capture) (b : Nat) :
    (capPushByte c b).file.length + (capPushByte c b).buffer.length
        = c.file.length + c.buffer.length + 1
    ∧ (capPushByte c b).sampleCount = c.sampleCount
    ∧ (capPushByte c b).imuSampleCount = c.imuSampleCount
    ∧ (capPushByte c b).buffer.length < BUFFER_SIZE
    ∧ c.file.length ≤ (capPushByte c b).file.length := by
  simp only [capPushByte]
  by_cases hb : BUFFER_SIZE ≤ (c.buffer ++ [b]).length
  · rw [if_pos hb]
    refine ⟨?_, rfl, rfl, ?_, ?_⟩
    · simp only [List.length_append, List.length_cons, List.length_nil]
      omega
    · simp [BUFFER_SIZE]
    · simp only [List.length_append]
      omega
  · rw [if_neg hb]
    simp only [List.length_append, List.length_cons, List.length_nil] at hb
    refine ⟨?_, rfl, rfl, ?_, le_refl _⟩
    · simp only [List.length_append, List.length_cons, List.length_nil]
      omega
    · simp only [List.length_append, List.length_cons, List.length_nil]
      omega

lemma capWriteBytes_facts : ∀ (data : List Nat) (c : Capture),
    (capWriteBytes c data).file.length + (capWriteBytes c data).buffer.length
        = c.file.length + c.buffer.length + data.length
    ∧ (capWriteBytes c data).sampleCount = c.sampleCount
    ∧ (capWriteBytes c data).imuSampleCount = c.imuSampleCount
    ∧ (c.buffer.length < BUFFER_SIZE → (capWriteBytes c data).buffer.length < BUFFER_SIZE)
    ∧ c.file.length ≤ (capWriteBytes c data).file.length := by
  intro data
  induction data with
  | nil =>
      intro c
      refine ⟨?_, rfl, rfl, fun h => h, le_refl _⟩
      simp [capWriteBytes]
  | cons b rest ih =>
      intro c
      have h1 := capPushByte_facts c b
      have h2 := ih (capPushByte c b)
      have heq : capWriteBytes c (b :: rest) = capWriteBytes (capPushByte c b) rest := by
        simp only [capWriteBytes, List.foldl_cons]
      rw [heq]
      refine ⟨?_, ?_, ?_, ?_, ?_⟩
      · rw [h2.1]
        simp only [List.length_cons]
        omega
      · rw [h2.2.1, h1.2.1]
      · rw [h2.2.2.1, h1.2.2.1]
      · intro _
        exact h2.2.2.2.1 h1.2.2.2.1
      · exact le_trans h1.2.2.2.2 h2.2.2.2.2

lemma recordECG_facts (c : Capture) (s : ECGSample) :
    (recordECG c s).file.length + (recordECG c s).buffer.length
        = c.file.length + c.buffer.length + ECG_RECORD_SIZE
    ∧ (recordECG c s).sampleCount = c.sampleCount + 1
    ∧ (recordECG c s).imuSampleCount = c.imuSampleCount
    ∧ (c.buffer.length < BUFFER_SIZE → (recordECG c s).buffer.length < BUFFER_SIZE)
    ∧ c.file.length ≤ (recordECG c s).file.length := by
  have h := capWriteBytes_facts (encodeECG s) c
  simp only [recordECG]
  refine ⟨?_, ?_, ?_, ?_, ?_⟩
  · rw [h.1, encodeECG_length s]
  · rw [h.2.1]
  · rw [h.2.2.1]
  · exact h.2.2.2.1
  · exact h.2.2.2.2

lemma flushBuffer_facts (c : Capture) (w : Nat) :
    (flushBuffer c w).cap.file.length + (flushBuffer c w).cap.buffer.length
        ≤ c.file.length + c.buffer.length
    ∧ (BUFFER_SIZE ≤ w → c.buffer.length < BUFFER_SIZE →
        (flushBuffer c w).cap.file.length + (flushBuffer c w).cap.buffer.length
          = c.file.length + c.buffer.length)
    ∧ (flushBuffer c w).cap.sampleCount = c.sampleCount
    ∧ (flushBuffer c w).cap.imuSampleCount = c.imuSampleCount
    ∧ (flushBuffer c w).cap.buffer.length ≤ c.buffer.length
    ∧ c.file.length ≤ (flushBuffer c w).cap.file.length := by
  simp only [flushBuffer]
  by_cases hb : c.buffer.length = 0
  · rw [if_pos hb]
    exact ⟨le_refl _, fun _ _ => rfl, rfl, rfl, le_refl _, le_refl _⟩
  · rw [if_neg hb]
    refine ⟨?_, ?_, rfl, rfl, ?_, ?_⟩
    · simp only [List.length_append, List.length_take, List.length_nil]
      omega
    · intro hw hlt
      simp only [List.length_append, List.length_take, List.length_nil]
      omega
    · simp only [List.length_nil]
      omega
    · simp only [List.length_append]
      omega

lemma countSamples_cons (e : Ev) (evs : List Ev) :
    countSamples (e :: evs) = countSamples evs + (if isSampleEv e then 1 else 0) := by
  simp [countSamples, List.countP_cons]

lemma step_facts (c : Capture) (e : Ev) (hc : c.buffer.length < BUFFER_SIZE) :
    (step c e).imuSampleCount = c.imuSampleCount
    ∧ (step c e).buffer.length < BUFFER_SIZE
    ∧ c.file.length ≤ (step c e).file.length
    ∧ (step c e).sampleCount = c.sampleCount + (if isSampleEv e then 1 else 0) := by
  cases e with
  | sample s =>
      have h := recordECG_facts c s
      simp only [step, isSampleEv, if_pos]
      exact ⟨h.2.2.1, h.2.2.2.1 hc, h.2.2.2.2, h.2.1⟩
  | flushTick w =>
      have h := flushBuffer_facts c w
      simp only [step, isSampleEv]
      exact ⟨h.2.2.2.1, lt_of_le_of_lt h.2.2.2.2.1 hc, h.2.2.2.2.2, h.2.2.1⟩

lemma step_conserve (c : Capture) (e : Ev) (hc : c.buffer.length < BUFFER_SIZE)
    (hrel : ∀ w, e = Ev.flushTick w → BUFFER_SIZE ≤ w) :
    (step c e).file.length + (step c e).buffer.length
      = c.file.length + c.buffer.length + (if isSampleEv e then ECG_RECORD_SIZE else 0) := by
  cases e with
  | sample s =>
      have h := recordECG_facts c s
      simp only [step, isSampleEv, if_pos]
      exact h.1
  | flushTick w =>
      have h := flushBuffer_facts c w
      simp only [step, isSampleEv]
      rw [h.2.1 (hrel w rfl) hc]
      simp

lemma runEvs_facts : ∀ (evs : List Ev) (c : Capture), c.buffer.length < BUFFER_SIZE →
    (runEvs c evs).imuSampleCount = c.imuSampleCount
    ∧ (runEvs c evs).buffer.length < BUFFER_SIZE
    ∧ c.file.length ≤ (runEvs c evs).file.length
    ∧ (runEvs c evs).sampleCount = c.sampleCount + countSamples evs := by
  intro evs
  induction evs with
  | nil =>
      intro c hc
      exact ⟨rfl, hc, le_refl _, by simp [runEvs, countSamples]⟩
  | cons e rest ih =>
      intro c hc
      have hstep : runEvs c (e :: rest) = runEvs (step c e) rest := by
        simp only [runEvs, List.foldl_cons]
      have h1 := step_facts c e hc
      have h2 := ih (step c e) h1.2.1
      rw [hstep]
      refine ⟨?_, h2.2.1, le_trans h1.2.2.1 h2.2.2.1, ?_⟩
      · rw [h2.1, h1.1]
      · rw [h2.2.2.2, h1.2.2.2, countSamples_cons]
        omega

lemma runEvs_conserve : ∀ (evs : List Ev) (c : Capture), ReliableEvs evs →
    c.buffer.length < BUFFER_SIZE →
    (runEvs c evs).file.length + (runEvs c evs).buffer.length
      = c.file.length + c.buffer.length + ECG_RECORD_SIZE * countSamples evs := by
  intro evs
  induction evs with
  | nil =>
      intro c _ _
      simp [runEvs, countSamples]
  | cons e rest ih =>
      intro c hrel hc
      have hstep : runEvs c (e :: rest) = runEvs (step c e) rest := by
        simp only [runEvs, List.foldl_cons]
      have hhead : ∀ w, e = Ev.flushTick w → BUFFER_SIZE ≤ w :=
        fun w hw => hrel e (List.mem_cons_self e rest) w hw
      have htail : ReliableEvs rest :=
        fun e' he' w hw => hrel e' (List.mem_cons_of_mem e he') w hw
      have h1 := step_conserve c e hc hhead
      have hb := (step_facts c e hc).2.1
      have h2 := ih (step c e) htail hb
      rw [hstep, h2, h1, countSamples_cons]
      cases e
      all_goals simp [isSampleEv, ECG_RECORD_SIZE]
      all_goals omega

lemma startCapture_buffer (ts : Nat) : (startCapture ts).buffer.length < BUFFER_SIZE := by
  simp [startCapture, BUFFER_SIZE]

lemma startCapture_file_length (ts : Nat) : (startCapture ts).file.length = HEADER_SIZE := by
  simp [startCapture, encodeHeader_length]

/-- C1: for every capture session finalized with the durable store
available (every store write accepts everything), after stopCapture
completes, re-reading the header from the store yields num_ecg_samples
equal to the number N of ECG records appended and num_imu_samples equal
to the number M of IMU records appended (M = 0: the code appends none),
and the file size equals HEADER_SIZE + N*ECG_RECORD_SIZE +
M*IMU_RECORD_SIZE. -/
theorem c1_header_roundtrip (ts : Nat) (evs : List Ev)
    (hrel : ReliableEvs evs) (hN : countSamples evs < 4294967296) :
    readLe32At (stopCapture (runEvs (startCapture ts) evs)).file OFFSET_NUM_ECG
        = countSamples evs
    ∧ readLe32At (stopCapture (runEvs (startCapture ts) evs)).file OFFSET_NUM_IMU = 0
    ∧ (stopCapture (runEvs (startCapture ts) evs)).file.length
        = HEADER_SIZE + countSamples evs * ECG_RECORD_SIZE + 0 * IMU_RECORD_SIZE := by
  have h0 := startCapture_buffer ts
  have hF := runEvs_facts evs (startCapture ts) h0
  have hC := runEvs_conserve evs (startCapture ts) hrel h0
  have hs0 : (startCapture ts).sampleCount = 0 := rfl
  have hi0 : (startCapture ts).imuSampleCount = 0 := rfl
  have hb0 : (startCapture ts).buffer.length = 0 := rfl
  rw [startCapture_file_length ts, hb0] at hC
  have himu : (runEvs (startCapture ts) evs).imuSampleCount = 0 := by rw [hF.1, hi0]
  have hcnt : (runEvs (startCapture ts) evs).sampleCount = countSamples evs := by
    rw [hF.2.2.2, hs0]
    omega
  have hlen : HEADER_SIZE ≤ ((runEvs (startCapture ts) evs).file
      ++ (runEvs (startCapture ts) evs).buffer).length := by
    simp only [List.length_append]
    omega
  have hfile := stopCapture_file (runEvs (startCapture ts) evs)
  refine ⟨?_, ?_, ?_⟩
  · rw [hfile, hcnt, patchCounts_read20 _ _ _ hlen, fromLe32_le32 _ hN]
  · rw [hfile, himu, patchCounts_read24 _ _ _ hlen]
    decide
  · rw [hfile, patchCounts_length _ _ _ hlen]
    simp only [List.length_append]
    simp only [ECG_RECORD_SIZE] at hC ⊢
    omega

/-- C1 witness: a concrete reliable one-record session. -/
theorem c1_header_roundtrip_witness :
    ReliableEvs [Ev.sample ⟨0, 0, 0⟩]
    ∧ countSamples [Ev.sample ⟨0, 0, 0⟩] < 4294967296
    ∧ readLe32At (stopCapture (runEvs (startCapture 0) [Ev.sample ⟨0, 0, 0⟩])).file
        OFFSET_NUM_ECG = countSamples [Ev.sample ⟨0, 0, 0⟩] := by
  have hrel : ReliableEvs [Ev.sample ⟨0, 0, 0⟩] := by
    intro e he w hw
    simp only [List.mem_singleton] at he
    subst he
    cases hw
  exact ⟨hrel, by decide, (c1_header_roundtrip 0 [Ev.sample ⟨0, 0, 0⟩] hrel (by decide)).1⟩

/-- C2 counterexample: a session in which one 6-byte ECG record is
appended but the periodic flush's store write accepts only 2 bytes.  At
finalize the verification fails (actual size 30, expected 34), the
mismatch is recorded, and yet the orchestrator proceeds to
STATE_UPLOAD_REQUEST, not STATE_ERROR: the claimed transition to Error
on IntegrityMismatch does not happen. -/
theorem c2_counterexample :
    (stopCapture (runEvs (startCapture 0) [Ev.sample ⟨0, 0, 0⟩, Ev.flushTick 2])).verdict
        = Verdict.sizeMismatch 30 34
    ∧ (stopCapture (runEvs (startCapture 0) [Ev.sample ⟨0, 0, 0⟩, Ev.flushTick 2])).state
        = SysState.uploadRequest
    ∧ SysState.uploadRequest ≠ SysState.error := by
  refine ⟨?_, ?_, by decide⟩ <;> decide

/-- C2 amended: stopCapture transitions to Error exactly when the
re-read file is smaller than one header; a size mismatch with the file
at least header-sized is recorded as a mismatch verdict (actual versus
expected bytes) but the orchestrator still proceeds to the
upload-request state, and the file is always left on the store. -/
theorem c2_amended (c : Capture) (hf : HEADER_SIZE ≤ c.file.length) :
    ((stopCapture c).state = SysState.error ↔ (stopCapture c).file.length < HEADER_SIZE)
    ∧ (¬ (stopCapture c).file.length < HEADER_SIZE →
        (stopCapture c).file.length ≠ expectedSize c →
          (stopCapture c).verdict
              = Verdict.sizeMismatch (stopCapture c).file.length (expectedSize c)
            ∧ (stopCapture c).state = SysState.uploadRequest)
    ∧ c.file.length ≤ (stopCapture c).file.length := by
  have hlen2 : (patchCounts (c.file ++ c.buffer) c.sampleCount c.imuSampleCount).length
      = c.file.length + c.buffer.length := by
    rw [patchCounts_length]
    · simp
    · simp only [List.length_append]
      omega
  simp only [stopCapture]
  rw [(flushBuffer_full c).1]
  split_ifs with h1 h2 <;> dsimp only
  · refine ⟨iff_of_true rfl h1, fun hcon _ => absurd h1 hcon, ?_⟩
    rw [hlen2]
    omega
  · refine ⟨iff_of_false (by simp) h1, fun _ hne => absurd h2 hne, ?_⟩
    rw [hlen2]
    omega
  · refine ⟨iff_of_false (by simp) h1, fun _ _ => ⟨rfl, rfl⟩, ?_⟩
    rw [hlen2]
    omega

/-- C2 amended witness: a concrete healthy session satisfies the
hypothesis. -/
theorem c2_amended_witness :
    HEADER_SIZE ≤ (startCapture 0).file.length
    ∧ ((stopCapture (startCapture 0)).state = SysState.error
        ↔ (stopCapture (startCapture 0)).file.length < HEADER_SIZE) :=
  ⟨by decide, (c2_amended (startCapture 0) (by decide)).1⟩

lemma getElem_low_decomp (p b1 b2 s1 : List Nat) (hp : p.length = 20) (i : Nat)
    (hi : i < 20) : (p ++ b1 ++ b2 ++ s1)[i]? = p[i]? := by
  rw [List.append_assoc, List.append_assoc]
  rw [List.getElem?_append_left (by omega : i < p.length)]

lemma getElem_high_decomp (p b1 b2 s1 : List Nat) (hp : p.length = 20)
    (hb1 : b1.length = 4) (hb2 : b2.length = 4) (i : Nat) (hi : 28 ≤ i) :
    (p ++ b1 ++ b2 ++ s1)[i]? = s1[i - 28]? := by
  have hl : (p ++ b1 ++ b2).length = 28 := by simp [hp, hb1, hb2]
  rw [List.getElem?_append_right (by omega : (p ++ b1 ++ b2).length ≤ i), hl]

/-- C5: the finalize-time header patch, in both variants, changes no
byte of the session file outside the two count fields at offsets
20..27: every byte below offset 20 and at offset 28 or beyond —
all header fields written at session start and all sample records —
reads back unchanged, and the file length is unchanged. -/
theorem c5_patch_frame (file : List Nat) (n m : Nat) (h : HEADER_SIZE ≤ file.length) :
    (∀ i, i < OFFSET_NUM_ECG → (patchCounts file n m)[i]? = file[i]?)
    ∧ (∀ i, OFFSET_NUM_IMU + 4 ≤ i → (patchCounts file n m)[i]? = file[i]?)
    ∧ (patchCounts file n m).length = file.length
    ∧ (∀ i, i < OFFSET_NUM_ECG → (patchCountsHolter file n)[i]? = file[i]?)
    ∧ (∀ i, OFFSET_NUM_IMU + 4 ≤ i → (patchCountsHolter file n)[i]? = file[i]?)
    ∧ (patchCountsHolter file n).length = file.length := by
  obtain ⟨p, q, r, s, hfile, hp, hq, hr, hs⟩ := file_decomp file h
  have hmain := patchCounts_decomp p q r s n m hp hq hr
  have hhol := patchCountsHolter_decomp p q r s n hp hq hr
  simp only [OFFSET_NUM_ECG, OFFSET_NUM_IMU]
  rw [hfile] at h
  refine ⟨?_, ?_, ?_, ?_, ?_, ?_⟩
  · intro i hi
    rw [hfile, hmain, getElem_low_decomp p (le32 n) (le32 m) s hp i hi,
      getElem_low_decomp p q r s hp i hi]
  · intro i hi
    rw [hfile, hmain,
      getElem_high_decomp p (le32 n) (le32 m) s hp (le32_length n) (le32_length m) i (by omega),
      getElem_high_decomp p q r s hp hq hr i (by omega)]
  · rw [hfile, hmain]
    simp [hp, hq, hr, le32_length]
  · intro i hi
    rw [hfile, hhol, getElem_low_decomp p (le32 n) (le32 0) s hp i hi,
      getElem_low_decomp p q r s hp i hi]
  · intro i hi
    rw [hfile, hhol,
      getElem_high_decomp p (le32 n) (le32 0) s hp (le32_length n) (le32_length 0) i (by omega),
      getElem_high_decomp p q r s hp hq hr i (by omega)]
  · rw [hfile, hhol]
    simp [hp, hq, hr, le32_length]

/-- C5 witness: a concrete 30-byte file, a preserved header byte and a
preserved data byte. -/
theorem c5_patch_frame_witness :
    HEADER_SIZE ≤ (List.replicate 30 7).length
    ∧ (patchCounts (List.replicate 30 7) 1 2)[5]? = (List.replicate 30 7)[5]?
    ∧ (patchCounts (List.replicate 30 7) 1 2)[29]? = (List.replicate 30 7)[29]? := by
  have h := c5_patch_frame (List.replicate 30 7) 1 2 (by decide)
  exact ⟨by decide, h.1 5 (by decide), h.2.1 29 (by decide)⟩

/-- C10: in every execution of either firmware variant no IMU record is
appended: the in-memory IMU counter stays 0 along any capture trace,
the header field patched at finalize reads back 0, and the public
queries holter_getIMUSampleCount and holter_isIMUAvailable return 0 and
false unconditionally. -/
theorem c10_no_imu (ts : Nat) (evs : List Ev) :
    (runEvs (startCapture ts) evs).imuSampleCount = 0
    ∧ readLe32At (stopCapture (runEvs (startCapture ts) evs)).file OFFSET_NUM_IMU = 0
    ∧ holter_getIMUSampleCount = 0
    ∧ holter_isIMUAvailable = false := by
  have h0 := startCapture_buffer ts
  have hF := runEvs_facts evs (startCapture ts) h0
  have hi0 : (startCapture ts).imuSampleCount = 0 := rfl
  have himu : (runEvs (startCapture ts) evs).imuSampleCount = 0 := by rw [hF.1, hi0]
  have hge : (startCapture ts).file.length ≤ (runEvs (startCapture ts) evs).file.length :=
    hF.2.2.1
  rw [startCapture_file_length ts] at hge
  have hlen : HEADER_SIZE ≤ ((runEvs (startCapture ts) evs).file
      ++ (runEvs (startCapture ts) evs).buffer).length := by
    simp only [List.length_append]
    omega
  refine ⟨himu, ?_, rfl, rfl⟩
  rw [stopCapture_file, himu, patchCounts_read24 _ _ _ hlen]
  decide

lemma ecgLoop_eq : ∀ (fuel last now c : Nat), now - last ≤ fuel → last ≤ now →
    ecgLoop last now c
      = (last + ECG_INTERVAL_US * ((now - last) / ECG_INTERVAL_US),
         c + (now - last) / ECG_INTERVAL_US) := by
  have hI : ECG_INTERVAL_US = 4000 := by decide
  intro fuel
  induction fuel with
  | zero =>
      intro last now c hf hle
      rw [ecgLoop]
      rw [if_neg (by omega)]
      have : now - last = 0 := by omega
      rw [this]
      simp
  | succ n ih =>
      intro last now c hf hle
      rw [ecgLoop]
      by_cases hcond : ECG_INTERVAL_US ≤ now - last
      · rw [if_pos hcond]
        rw [hI] at hcond
        rw [ih (last + ECG_INTERVAL_US) now (c + 1) (by rw [hI] at *; omega)
          (by rw [hI] at *; omega)]
        rw [hI]
        rw [Prod.mk.injEq]
        exact ⟨by omega, by omega⟩
      · rw [if_neg hcond]
        rw [hI] at hcond
        have h0 : (now - last) / ECG_INTERVAL_US = 0 := by
          rw [hI]
          omega
        rw [h0]
        simp

lemma chain_le_getLastD : ∀ (ts : List Nat) (t : Nat),
    List.Chain (· ≤ ·) t ts → t ≤ ts.getLastD t := by
  intro ts
  induction ts with
  | nil => intro t _; exact le_refl t
  | cons s rest ih =>
      intro t hch
      rw [List.chain_cons] at hch
      rw [List.getLastD_cons]
      exact le_trans hch.1 (ih s hch.2)

lemma runLoop_aux : ∀ (ts : List Nat) (start prev c : Nat), start ≤ prev →
    List.Chain (· ≤ ·) prev ts →
    ts.foldl (fun p t => ecgLoop p.1 t p.2)
        (start + ECG_INTERVAL_US * ((prev - start) / ECG_INTERVAL_US), c)
      = (start + ECG_INTERVAL_US * ((ts.getLastD prev - start) / ECG_INTERVAL_US),
         c + ((ts.getLastD prev - start) / ECG_INTERVAL_US
              - (prev - start) / ECG_INTERVAL_US)) := by
  have hI : ECG_INTERVAL_US = 4000 := by decide
  intro ts
  induction ts with
  | nil =>
      intro start prev c _ _
      simp [List.getLastD]
  | cons t rest ih =>
      intro start prev c hsp hch
      rw [List.chain_cons] at hch
      rw [List.foldl_cons, List.getLastD_cons]
      have hle : start + ECG_INTERVAL_US * ((prev - start) / ECG_INTERVAL_US) ≤ t := by
        rw [hI]
        omega
      rw [ecgLoop_eq (t - (start + ECG_INTERVAL_US * ((prev - start) / ECG_INTERVAL_US)))
        _ _ _ (le_refl _) hle]
      have harg1 : start + ECG_INTERVAL_US * ((prev - start) / ECG_INTERVAL_US)
          + ECG_INTERVAL_US
            * ((t - (start + ECG_INTERVAL_US * ((prev - start) / ECG_INTERVAL_US)))
                / ECG_INTERVAL_US)
          = start + ECG_INTERVAL_US * ((t - start) / ECG_INTERVAL_US) := by
        rw [hI]
        omega
      have harg2 : c + (prev - start) / ECG_INTERVAL_US
          + (t - (start + ECG_INTERVAL_US * ((prev - start) / ECG_INTERVAL_US)))
              / ECG_INTERVAL_US
          = c + (t - start) / ECG_INTERVAL_US := by
        rw [hI]
        omega
      have hc2 : c + ((t - (start + ECG_INTERVAL_US * ((prev - start) / ECG_INTERVAL_US)))
          / ECG_INTERVAL_US)
            = (c + (t - start) / ECG_INTERVAL_US) - (prev - start) / ECG_INTERVAL_US := by
        rw [hI]
        omega
      rw [harg1, hc2]
      rw [ih start t ((c + (t - start) / ECG_INTERVAL_US) - (prev - start) / ECG_INTERVAL_US)
        (le_trans hsp hch.1) hch.2]
      have hlast := chain_le_getLastD rest t hch.2
      rw [Prod.mk.injEq]
      refine ⟨rfl, ?_⟩
      rw [hI] at hle ⊢
      have h1 : prev ≤ t := hch.1
      omega

/-- C3: the ECG scheduler advances its per-channel due time by exactly
one interval of ECG_INTERVAL_US = 1000000/ECG_SAMPLE_RATE_HZ
microseconds per fire — never resynchronizing to the current time —
and when more than one interval has elapsed it fires repeatedly, one
interval per fire, until caught up (the residue left is strictly below
one interval, so no tick is skipped); consequently, across any monotone
sequence of captureLoop invocation times spanning exactly D seconds
from the session start, the channel fires exactly
ECG_SAMPLE_RATE_HZ * D times. -/
theorem c3_scheduler (start D : Nat) (ts : List Nat)
    (hchain : List.Chain (· ≤ ·) start ts)
    (hspan : ts.getLastD start - start = D * 1000000) :
    (runLoop start ts).2 = ECG_SAMPLE_RATE_HZ * D
    ∧ (∀ last now c, last ≤ now →
        (ecgLoop last now c).1
            = last + ECG_INTERVAL_US * ((now - last) / ECG_INTERVAL_US)
        ∧ (ecgLoop last now c).2 = c + (now - last) / ECG_INTERVAL_US
        ∧ now - (ecgLoop last now c).1 < ECG_INTERVAL_US) := by
  have hI : ECG_INTERVAL_US = 4000 := by decide
  constructor
  · have h0 : (start, 0)
        = (start + ECG_INTERVAL_US * ((start - start) / ECG_INTERVAL_US), 0) := by
      simp
    unfold runLoop
    rw [h0, runLoop_aux ts start start 0 (le_refl _) hchain]
    rw [hspan]
    simp only [ECG_SAMPLE_RATE_HZ]
    rw [hI]
    omega
  · intro last now c hle
    have h := ecgLoop_eq (now - last) last now c (le_refl _) hle
    rw [h]
    refine ⟨rfl, rfl, ?_⟩
    rw [hI]
    omega

/-- C3 witness: one call at exactly one second after start fires 250
times. -/
theorem c3_scheduler_witness :
    List.Chain (· ≤ ·) 0 [1000000]
    ∧ [1000000].getLastD 0 - 0 = 1 * 1000000
    ∧ (runLoop 0 [1000000]).2 = ECG_SAMPLE_RATE_HZ * 1 := by
  have hch : List.Chain (· ≤ ·) 0 [1000000] :=
    List.Chain.cons (by omega) List.Chain.nil
  exact ⟨hch, by decide, (c3_scheduler 0 1 [1000000] hch (by decide)).1⟩

lemma pushByte_lt (st : BufState) (b : Nat) (h : st.buffer.length + 1 < BUFFER_SIZE) :
    pushByte st b = ⟨st.buffer ++ [b], st.flushedBlocks⟩ := by
  simp only [pushByte]
  rw [if_neg]
  simp only [List.length_append, List.length_cons, List.length_nil]
  omega

lemma pushByte_ge (st : BufState) (b : Nat) (h : BUFFER_SIZE ≤ st.buffer.length + 1) :
    pushByte st b = ⟨[], st.flushedBlocks ++ [st.buffer ++ [b]]⟩ := by
  simp only [pushByte]
  rw [if_pos]
  simp only [List.length_append, List.length_cons, List.length_nil]
  omega

lemma c4_compute :
    writeToBuffer ⟨List.replicate 8190 0, []⟩ [1, 2, 3, 4, 5, 6]
      = ⟨[3, 4, 5, 6], [List.replicate 8190 0 ++ [1, 2]]⟩ := by
  simp only [writeToBuffer, List.foldl_cons, List.foldl_nil]
  rw [pushByte_lt ⟨List.replicate 8190 0, []⟩ 1 (by
    simp only [List.length_replicate, BUFFER_SIZE]
    omega)]
  simp only [List.nil_append, List.append_assoc, List.cons_append, List.singleton_append]
  rw [pushByte_ge ⟨List.replicate 8190 0 ++ [1], []⟩ 2 (by
    simp only [List.length_append, List.length_replicate, List.length_cons,
      List.length_nil, BUFFER_SIZE]
    omega)]
  simp only [List.nil_append, List.append_assoc, List.cons_append, List.singleton_append]
  rw [pushByte_lt ⟨[], [List.replicate 8190 0 ++ [1, 2]]⟩ 3 (by
    simp only [List.length_nil, BUFFER_SIZE]
    omega)]
  simp only [List.nil_append, List.append_assoc, List.cons_append, List.singleton_append]
  rw [pushByte_lt ⟨[3], [List.replicate 8190 0 ++ [1, 2]]⟩ 4 (by
    simp only [List.length_cons, List.length_nil, BUFFER_SIZE]
    omega)]
  simp only [List.nil_append, List.append_assoc, List.cons_append, List.singleton_append]
  rw [pushByte_lt ⟨[3, 4], [List.replicate 8190 0 ++ [1, 2]]⟩ 5 (by
    simp only [List.length_cons, List.length_nil, BUFFER_SIZE]
    omega)]
  simp only [List.nil_append, List.append_assoc, List.cons_append, List.singleton_append]
  rw [pushByte_lt ⟨[3, 4, 5], [List.replicate 8190 0 ++ [1, 2]]⟩ 6 (by
    simp only [List.length_cons, List.length_nil, BUFFER_SIZE]
    omega)]
  simp only [List.nil_append, List.append_assoc, List.cons_append, List.singleton_append]

/-- C4 counterexample: BUFFER_SIZE = 8192 is not a multiple of the
6-byte ECG record, so the overflow flush fires in the middle of a
record.  With 8190 bytes already staged, appending the record whose
bytes are 1..6 emits a flush block ending in the record's first two
bytes and leaves its last four bytes in the buffer: the record appears
contiguously in no flushed block, contradicting the claim that no
sample record is ever split across flush boundaries. -/
theorem c4_counterexample :
    (¬ ∃ a b, List.replicate 8190 0 ++ [1, 2]
        = a ++ encodeECG ⟨513, 1027, 1541⟩ ++ b)
    ∧ (writeToBuffer ⟨List.replicate 8190 0, []⟩
        (encodeECG ⟨513, 1027, 1541⟩)).flushedBlocks
        = [List.replicate 8190 0 ++ [1, 2]]
    ∧ (writeToBuffer ⟨List.replicate 8190 0, []⟩
        (encodeECG ⟨513, 1027, 1541⟩)).buffer = [3, 4, 5, 6] := by
  have hrec : encodeECG ⟨513, 1027, 1541⟩ = [1, 2, 3, 4, 5, 6] := by decide
  refine ⟨?_, ?_, ?_⟩
  · rintro ⟨a, b, hab⟩
    have h3 : (3 : Nat) ∈ List.replicate 8190 0 ++ [1, 2] := by
      rw [hab, hrec]
      simp
    rw [List.mem_append] at h3
    rcases h3 with h3 | h3
    · exact absurd (List.eq_of_mem_replicate h3) (by decide)
    · simp at h3
  · rw [hrec, c4_compute]
  · rw [hrec, c4_compute]

lemma pushByte_facts (st : BufState) (b : Nat) :
    (pushByte st b).buffer.length < BUFFER_SIZE
    ∧ bytesOf (pushByte st b) = bytesOf st + 1
    ∧ ∃ nb, (pushByte st b).flushedBlocks = st.flushedBlocks ++ nb := by
  simp only [pushByte]
  by_cases hb : BUFFER_SIZE ≤ (st.buffer ++ [b]).length
  · rw [if_pos hb]
    refine ⟨by simp [BUFFER_SIZE], ?_, ⟨[st.buffer ++ [b]], rfl⟩⟩
    simp only [bytesOf, List.map_append, List.sum_append, List.map_cons, List.map_nil,
      List.sum_cons, List.sum_nil, List.length_append, List.length_cons, List.length_nil]
    omega
  · rw [if_neg hb]
    simp only [List.length_append, List.length_cons, List.length_nil] at hb
    refine ⟨?_, ?_, ⟨[], by simp⟩⟩
    · simp only [List.length_append, List.length_cons, List.length_nil]
      omega
    · simp only [bytesOf, List.length_append, List.length_cons, List.length_nil]
      omega

/-- C4 amended: the write cursor never exceeds the buffer capacity (it
stays strictly below BUFFER_SIZE after every append), append copies
byte-by-byte and flushes exactly when the buffer fills — in particular
a record's bytes may be divided between a flushed block and the buffer
— no appended byte is ever lost (total bytes flushed plus staged grow
by exactly the appended length), previously flushed blocks are never
altered, and an append never fails (the copy is total for any input). -/
theorem c4_amended (st : BufState) (data : List Nat) (h : st.buffer.length < BUFFER_SIZE) :
    (writeToBuffer st data).buffer.length < BUFFER_SIZE
    ∧ bytesOf (writeToBuffer st data) = bytesOf st + data.length
    ∧ ∃ newBlocks, (writeToBuffer st data).flushedBlocks
        = st.flushedBlocks ++ newBlocks := by
  induction data generalizing st with
  | nil =>
      exact ⟨h, by simp [writeToBuffer], ⟨[], by simp [writeToBuffer]⟩⟩
  | cons b rest ih =>
      have hstep : writeToBuffer st (b :: rest) = writeToBuffer (pushByte st b) rest := by
        simp only [writeToBuffer, List.foldl_cons]
      have h1 := pushByte_facts st b
      have h2 := ih (pushByte st b) h1.1
      rw [hstep]
      refine ⟨h2.1, ?_, ?_⟩
      · rw [h2.2.1, h1.2.1]
        simp only [List.length_cons]
        omega
      · obtain ⟨nb1, hnb1⟩ := h1.2.2
        obtain ⟨nb2, hnb2⟩ := h2.2.2
        exact ⟨nb1 ++ nb2, by rw [hnb2, hnb1, List.append_assoc]⟩

/-- C4 amended witness: a small append preserves the cursor bound and
loses no bytes. -/
theorem c4_amended_witness :
    ([1] : List Nat).length < BUFFER_SIZE
    ∧ bytesOf (writeToBuffer ⟨[1], []⟩ [2, 3]) = bytesOf ⟨[1], []⟩ + 2 := by
  have h := c4_amended ⟨[1], []⟩ [2, 3] (by decide)
  exact ⟨by decide, h.2.1⟩

/-- C9: flushBuffer on an empty buffer is a no-op (no store write, state
untouched); on a non-empty buffer it issues exactly one store write
call carrying the buffer's whole contents and resets the cursor to
zero; when the store accepts fewer bytes than requested the emitted
diagnostic reports the actual byte count written versus requested
(written = 0 is reported as a failed write), and a full write is not
reported as a fault. -/
theorem c9_flush (c : Capture) (w : Nat) :
    (c.buffer = [] → flushBuffer c w = ⟨c, [], FlushLog.okLog⟩)
    ∧ (c.buffer ≠ [] →
        (flushBuffer c w).calls = [c.buffer]
        ∧ (flushBuffer c w).cap.buffer = []
        ∧ (flushBuffer c w).cap.file = c.file ++ c.buffer.take (min w c.buffer.length)
        ∧ (0 < w → w < c.buffer.length →
            (flushBuffer c w).log = FlushLog.shortLog w c.buffer.length)
        ∧ (c.buffer.length ≤ w → (flushBuffer c w).log = FlushLog.okLog)
        ∧ (w = 0 → (flushBuffer c w).log = FlushLog.failedLog)) := by
  constructor
  · intro hb
    simp only [flushBuffer, hb, List.length_nil]
    rw [if_pos trivial]
  · intro hb
    have hlen : c.buffer.length ≠ 0 := fun h0 => hb (List.length_eq_zero.mp h0)
    have hunfold : flushBuffer c w
        = ⟨⟨c.file ++ c.buffer.take (min w c.buffer.length), [], c.sampleCount,
            c.imuSampleCount⟩, [c.buffer],
           if min w c.buffer.length = 0 then FlushLog.failedLog
           else if min w c.buffer.length = c.buffer.length then FlushLog.okLog
           else FlushLog.shortLog (min w c.buffer.length) c.buffer.length⟩ := by
      simp only [flushBuffer, if_neg hlen]
    rw [hunfold]
    refine ⟨rfl, rfl, rfl, ?_, ?_, ?_⟩
    · intro h1 h2
      have hm : min w c.buffer.length = w := by omega
      dsimp only
      rw [hm, if_neg (by omega), if_neg (by omega)]
    · intro hwle
      have hm : min w c.buffer.length = c.buffer.length := by omega
      dsimp only
      rw [hm, if_neg (by omega), if_pos rfl]
    · intro hw0
      have hm : min w c.buffer.length = 0 := by omega
      dsimp only
      rw [hm, if_pos rfl]

/-- C9 witness: a three-byte buffer flushed into a store accepting one
byte reports the short write 1/3. -/
theorem c9_flush_witness :
    (([1, 2, 3] : List Nat) ≠ [])
    ∧ (flushBuffer ⟨[], [1, 2, 3], 0, 0⟩ 1).log = FlushLog.shortLog 1 3 := by
  have h := (c9_flush ⟨[], [1, 2, 3], 0, 0⟩ 1).2 (by decide)
  exact ⟨by decide, h.2.2.2.1 (by decide) (by decide)⟩

/-- C6: the transfer step succeeds exactly when the HTTP status is 200
or 204; the stored session file becomes absent only on success (never
speculatively); on any other status the upload fails, the failure
report carries the status and the response body, the file is preserved,
and the orchestrator moves to Error (and to Complete on success). -/
theorem c6_upload (f : List Nat) (code : Int) (body : String) (removeOk : Bool) :
    ((uploadToS3 (some f) true code body removeOk).1 = true ↔ (code = 200 ∨ code = 204))
    ∧ ((uploadToS3 (some f) true code body removeOk).2.1 = none
        → (uploadToS3 (some f) true code body removeOk).1 = true)
    ∧ ((uploadToS3 (some f) true code body removeOk).1 = false
        → (uploadToS3 (some f) true code body removeOk).2.1 = some f
          ∧ (uploadToS3 (some f) true code body removeOk).2.2 = some (code, body))
    ∧ uploadState true = SysState.complete
    ∧ uploadState false = SysState.error := by
  simp only [uploadToS3]
  rw [if_neg (by decide : ¬ (true = false))]
  by_cases hc : code = 200 ∨ code = 204
  · rw [if_pos hc]
    exact ⟨iff_of_true rfl hc, fun _ => rfl, fun hfalse => absurd hfalse (by simp),
      rfl, rfl⟩
  · rw [if_neg hc]
    refine ⟨iff_of_false (by simp) hc, ?_, fun _ => ⟨rfl, rfl⟩, rfl, rfl⟩
    intro hnone
    exact absurd hnone (by simp)

/-- C6 witness: a 500 status fails, preserves the file and reports the
status with the body. -/
theorem c6_upload_witness :
    (uploadToS3 (some [0]) true 500 respBodyText true).1 = false
    ∧ (uploadToS3 (some [0]) true 500 respBodyText true).2.1 = some [0]
    ∧ (uploadToS3 (some [0]) true 500 respBodyText true).2.2 = some (500, respBodyText) := by
  have h := (c6_upload [0] 500 respBodyText true).2.2.1 (by decide)
  exact ⟨by decide, h.1, h.2⟩

lemma mqttCallback_ignored (rt : String) (st : HandshakeVars) (m : Msg)
    (h : m.topic ≠ rt ∨ m.payload = Payload.malformed) :
    mqttCallback rt st m = st := by
  rcases m with ⟨tp, pl⟩
  cases pl with
  | malformed => rfl
  | noUrl =>
      simp only [mqttCallback]
      by_cases ht : tp = rt
      · rw [if_pos ht]
      · rw [if_neg ht]
  | withUrl u =>
      rcases h with h | h
      · simp only [mqttCallback]
        rw [if_neg h]
      · exact absurd h (by simp)

lemma foldl_ignored (rt : String) : ∀ (b : List Msg) (st : HandshakeVars),
    (∀ m ∈ b, m.topic ≠ rt ∨ m.payload = Payload.malformed) →
    b.foldl (mqttCallback rt) st = st := by
  intro b
  induction b with
  | nil => intro st _; rfl
  | cons m rest ih =>
      intro st h
      rw [List.foldl_cons, mqttCallback_ignored rt st m (h m (List.mem_cons_self m rest))]
      exact ih st (fun m' hm' => h m' (List.mem_cons_of_mem m hm'))

lemma waitForUrl_time (rt : String) : ∀ (batches : List (List Msg)) (st : HandshakeVars)
    (t : Nat), t % 100 = 0 → t ≤ HANDSHAKE_TIMEOUT_MS →
    (waitForUrl rt st t batches).2 ≤ HANDSHAKE_TIMEOUT_MS := by
  intro batches
  induction batches with
  | nil =>
      intro st t _ ht
      rw [waitForUrl]
      split_ifs <;> exact ht
  | cons b rest ih =>
      intro st t hmod ht
      rw [waitForUrl]
      split_ifs with hguard
      · exact ht
      · simp only [HANDSHAKE_TIMEOUT_MS] at *
        push_neg at hguard
        exact ih _ (t + POLL_DELAY_MS) (by simp only [POLL_DELAY_MS]; omega)
          (by simp only [POLL_DELAY_MS]; omega)

lemma waitForUrl_ignored (rt : String) : ∀ (batches : List (List Msg))
    (st : HandshakeVars) (t : Nat),
    (∀ m ∈ batches.flatten, m.topic ≠ rt ∨ m.payload = Payload.malformed) →
    (waitForUrl rt st t batches).1 = st := by
  intro batches
  induction batches with
  | nil =>
      intro st t _
      rw [waitForUrl]
      split_ifs <;> rfl
  | cons b rest ih =>
      intro st t h
      have hb : ∀ m ∈ b, m.topic ≠ rt ∨ m.payload = Payload.malformed := by
        intro m hm
        exact h m (by simp only [List.flatten_cons, List.mem_append]; exact Or.inl hm)
      have hrest : ∀ m ∈ rest.flatten, m.topic ≠ rt ∨ m.payload = Payload.malformed := by
        intro m hm
        exact h m (by simp only [List.flatten_cons, List.mem_append]; exact Or.inr hm)
      rw [waitForUrl]
      split_ifs with hguard
      · rfl
      · rw [foldl_ignored rt b st hb]
        exact ih st (t + POLL_DELAY_MS) hrest

/-- C7: requestDestination resolves to exactly one of
DestinationReceived, Timeout or PublishFailed: it yields PublishFailed
exactly on a failed publish, the polled wait never advances its clock
beyond the fixed 60 s ceiling, a message on a different topic or with a
malformed payload never changes the handshake state (so an input
consisting only of such messages resolves to Timeout rather than
satisfying the wait or extending it), and with the publish succeeded
the outcome is always either Timeout or a received destination. -/
theorem c7_handshake (rt : String) (batches : List (List Msg)) :
    requestDestination rt false batches = HandshakeOutcome.publishFailedOut
    ∧ (∀ st m, (m.topic ≠ rt ∨ m.payload = Payload.malformed) → mqttCallback rt st m = st)
    ∧ (waitForUrl rt ⟨false, ""⟩ 0 batches).2 ≤ HANDSHAKE_TIMEOUT_MS
    ∧ ((∀ m ∈ batches.flatten, m.topic ≠ rt ∨ m.payload = Payload.malformed) →
        requestDestination rt true batches = HandshakeOutcome.timedOut)
    ∧ (requestDestination rt true batches = HandshakeOutcome.timedOut
        ∨ ∃ u, requestDestination rt true batches
            = HandshakeOutcome.destinationReceived u) := by
  refine ⟨rfl, fun st m h => mqttCallback_ignored rt st m h,
    waitForUrl_time rt batches ⟨false, ""⟩ 0 (by decide) (by decide), ?_, ?_⟩
  · intro h
    have hw := waitForUrl_ignored rt batches ⟨false, ""⟩ 0 h
    simp [requestDestination, hw]
  · by_cases hr : (waitForUrl rt ⟨false, ""⟩ 0 batches).1.urlReceived = true
    · exact Or.inr ⟨(waitForUrl rt ⟨false, ""⟩ 0 batches).1.uploadURL,
        by simp [requestDestination, hr]⟩
    · exact Or.inl (by simp [requestDestination, hr])

/-- C7 witness: one batch holding one malformed message on another
topic resolves to Timeout. -/
theorem c7_handshake_witness :
    (∀ m ∈ ([[⟨topicOtherText, Payload.malformed⟩]] : List (List Msg)).flatten,
        m.topic ≠ topicResponseText ∨ m.payload = Payload.malformed)
    ∧ requestDestination topicResponseText true [[⟨topicOtherText, Payload.malformed⟩]]
        = HandshakeOutcome.timedOut := by
  have hmal : ∀ m ∈ ([[⟨topicOtherText, Payload.malformed⟩]] : List (List Msg)).flatten,
      m.topic ≠ topicResponseText ∨ m.payload = Payload.malformed := by
    intro m hm
    simp only [List.flatten, List.append_nil, List.mem_singleton] at hm
    subst hm
    exact Or.inr rfl
  exact ⟨hmal,
    (c7_handshake topicResponseText [[⟨topicOtherText, Payload.malformed⟩]]).2.2.2.1 hmal⟩

/-- C8 counterexample: with the durable store unavailable, startCapture
does not run a degraded sampling loop at all — isCapturing is false,
the orchestrator state jumps straight to the upload request (never
Capturing), the sample counter is a simulated constant 100, and the
holter variant additionally returns failure, contradicting the claimed
continue-sampling-without-persisting fallback. -/
theorem c8_counterexample :
    startCaptureNoSD.isCapturing = false
    ∧ startCaptureNoSD.state ≠ SysState.capturing
    ∧ startCaptureNoSD.state = SysState.uploadRequest
    ∧ startCaptureNoSD.sampleCount = 100
    ∧ holter_startCaptureNoSD.ret = false := by
  decide

/-- C8 amended: when the store cannot be opened at session start,
capture is skipped rather than run degraded: both variants set a fixed
simulated sample count of 100 and mark the session not capturing (so
the capture loop is a guarded no-op), main.cpp jumps directly to the
upload-request state while holter_startCapture returns false, and
callers can query whether persistence is active via
holter_isSDAvailable. -/
theorem c8_amended (sd : Bool) (c : Capture) (body : Capture → Capture) :
    startCaptureNoSD.sampleCount = 100
    ∧ startCaptureNoSD.imuSampleCount = 100
    ∧ startCaptureNoSD.isCapturing = false
    ∧ startCaptureNoSD.state = SysState.uploadRequest
    ∧ holter_startCaptureNoSD.sampleCount = 100
    ∧ holter_startCaptureNoSD.isCapturing = false
    ∧ holter_startCaptureNoSD.ret = false
    ∧ holter_captureLoopGuard false c body = c
    ∧ holter_isSDAvailable sd = sd :=
  ⟨rfl, rfl, rfl, rfl, rfl, rfl, rfl, rfl, rfl⟩

end Holter
